import Mathlib

/-!
# Verification of `pyrolite_meltsutil.automation`

A shallow embedding of the batch-orchestration code in
`pyrolite_meltsutil/automation/__init__.py` (`MeltsExperiment`, `MeltsBatch`),
together with theorems settling the specification claims about it.

Python dictionaries holding experiment configuration are modelled as
association lists with string keys; dictionary equality (Python `==`) is the
order-insensitive `dictEq` below.  Numeric parameter values are modelled as
integers (the claims under study do not depend on fractional arithmetic), and
the three "magic" value shapes appearing in the code — numbers, strings,
nested component maps (for `modifychem`) and string lists (for `exclude` /
`modes`) — are the constructors of `Val`.
-/

/-- A configuration value: a number, a string, a nested numeric mapping
(the shape of a `modifychem` directive) or a list of strings (the shape of
an `exclude` directive or of the `modes` entry). -/
inductive Val where
  | num (n : Int)
  | str (s : String)
  | nmap (m : List (String × Int))
  | slist (l : List String)
deriving DecidableEq, Repr

/-- A Python dict of configuration parameters, as an association list.
Dicts built by the code never carry duplicate keys. -/
abbrev Record := List (String × Val)

/-- `lookup r k` is Python `r[k]` as an `Option` (`r.get(k)`). -/
def lookup : Record → String → Option Val
  | [], _ => none
  | (k, v) :: rest, key => if k = key then some v else lookup rest key

/-- Python `k in r`. -/
def hasKey (r : Record) (k : String) : Bool :=
  (lookup r k).isSome

/-- The record left after Python `r.pop(k)`: all bindings of `k` removed. -/
def popKey (r : Record) (k : String) : Record :=
  r.filter (fun p => p.1 ≠ k)

/-- Python `{**a, **b}`: `a`'s keys in order with `b`'s values winning on
conflict, then `b`'s fresh keys in order. -/
def mergeRec (a b : Record) : Record :=
  a.map (fun p => (p.1, (lookup b p.1).getD p.2)) ++
    b.filter (fun p => !hasKey a p.1)

/-- `dictLe a b`: every binding of `a` is present with the same value in `b`. -/
def dictLe (a b : Record) : Bool :=
  a.all (fun p => lookup b p.1 == some p.2)

/-- Python `==` on dicts: same keys bound to the same values, order
insensitive. -/
def dictEq (a b : Record) : Bool :=
  dictLe a b && dictLe b a

/-- Modelled from the spec: `combine_choices` (imported from
`pyrolite.util.multip`, a library outside this repository).  Spec 4.1:
"compute every combination formed by choosing exactly one value per key in
`choices` (Cartesian product over the keys' value lists; if `choices` is
empty the product is a single empty combination)", with the first key varying
outermost. -/
def combine_choices : List (String × List Val) → List Record
  | [] => [[]]
  | (k, vs) :: rest =>
      vs.flatMap (fun v => (combine_choices rest).map (fun r => (k, v) :: r))

/-- The configuration-grid expansion performed by `MeltsBatch.__init__`
(src lines 169-171) over an already-computed combination list `grid`:

    self.configs = [{**self.default}]
    self.configs += [{**self.default, **i} for i in grid if i not in self.configs]

The comprehension is evaluated in full before `+=` extends the list, so the
membership test `i not in self.configs` is against the one-element list
`[{**self.default}]` for every `i`. -/
def expandConfigs (default : Record) (grid : List Record) : List Record :=
  let configs := [default]
  configs ++
    (grid.filter (fun i => !configs.any (fun c => dictEq i c))).map
      (fun i => mergeRec default i)

/-- `MeltsBatch.__init__`'s configuration grid, from the default record and
the caller's choice grid (src lines 169-171). -/
def mkConfigs (default : Record) (config_grid : List (String × List Val)) :
    List Record :=
  expandConfigs default (combine_choices config_grid)

/-- `itertools.product(configs, compositions)`: pairs with the first list
varying outermost. -/
def listProduct (as : List α) (bs : List β) : List (α × β) :=
  as.flatMap (fun a => bs.map (fun b => (a, b)))

/-- Modelled from the spec: `exp_name` lives in `automation/naming.py`, which
is absent from the sources; spec 4.2 requires only a deterministic pure
function of the configuration record.  We use a plain serialization of the
record. -/
def valStr : Val → String
  | .num n => toString n
  | .str s => s
  | .nmap m => String.intercalate "_" (m.map (fun p => p.1 ++ toString p.2))
  | .slist l => String.intercalate "_" l

/-- Modelled from the spec: deterministic run name (spec 4.2). -/
def exp_name (r : Record) : String :=
  String.intercalate "-" (r.map (fun p => p.1 ++ "=" ++ valStr p.2))

/-- The experiment set built by `MeltsBatch.__init__` (src lines 174-178):

    exprs = [{**cfg, **cmp} for (cfg, cmp) in itertools.product(self.configs, self.compositions)]
    self.experiments = [(exp_name(expr), expr, self.env) for expr in exprs]

Environment specifications are opaque to the claims, so `env` is carried as a
record. -/
def mkExperiments (configs compositions : List Record) (env : Record) :
    List (String × Record × Record) :=
  (listProduct configs compositions).map
    (fun p => (exp_name (mergeRec p.1 p.2), mergeRec p.1 p.2, env))

/-! ## The run model

`MeltsBatch.run` (src lines 184-223) and `MeltsExperiment.run` (src lines
95-105).  Python exceptions are modelled with `Except PyError`; the in-place
mutation of the caller's `exclude` list (via `exp_exclude = exclude;
exp_exclude += exp.pop("exclude")`, which aliases and extends the same list
object) is modelled by threading the exclude list as explicit state.  The
filesystem test `(self.dir / n).exists()` is abstracted as a boolean
predicate `dirExists` on run names, and wall-clock times are passed in as
integer parameters `t0`, `t1`. -/

/-- The Python exceptions the run loop can raise. -/
inductive PyError where
  | keyError (k : String)
  | typeError (msg : String)
  | nameError (n : String)
deriving DecidableEq, Repr

/-- One call to `MeltsProcess.write`: the tokens sent, and the `wait` and
`log` flags. -/
structure WriteEvent where
  tokens : List Int
  wait : Bool
  log : Bool
deriving DecidableEq, Repr

/-- The observable state of a `MeltsProcess` session (`automation/process.py`
is outside the given sources, so the session is modelled by its interaction
trace: the sequence of writes performed and whether it was terminated). -/
structure ProcessSession where
  writes : List WriteEvent
  terminated : Bool
deriving DecidableEq, Repr

/-- A freshly spawned `MeltsProcess` (src line 99): nothing written yet, not
terminated. -/
def MeltsProcess.spawn : ProcessSession :=
  { writes := [], terminated := false }

/-- `MeltsProcess.write(tokens, wait=..., log=...)`: appends one write event
to the session's trace. -/
def MeltsProcess.writeCmds (mp : ProcessSession) (tokens : List Int)
    (wait log : Bool) : ProcessSession :=
  { mp with writes := mp.writes ++ [{ tokens := tokens, wait := wait, log := log }] }

/-- `MeltsProcess.terminate()`. -/
def MeltsProcess.terminateSession (mp : ProcessSession) : ProcessSession :=
  { mp with terminated := true }

/-- `MeltsExperiment.run(log, superliquidus_start)` (src lines 95-105):

    self.mp = MeltsProcess(...)
    self.mp.write([3, [0, 1][superliquidus_start], 4], wait=True, log=log)
    self.mp.terminate()

Python's `[0, 1][superliquidus_start]` indexes a two-element list with a
boolean: `1` when the flag is true, `0` when it is false. -/
def meltsExperimentRun (log superliquidus_start : Bool) : ProcessSession :=
  MeltsProcess.terminateSession
    (MeltsProcess.writeCmds MeltsProcess.spawn
      [3, if superliquidus_start then 1 else 0, 4] true log)

/-- The inputs handed to `dict_to_meltsfile(exp, modes=exp["modes"],
exclude=exp_exclude)` (src line 217).  `dict_to_meltsfile` lives in
`meltsfile.py`, outside the given sources; the claims only concern which
record, modes value and exclusion list reach it, so the rendered file is
modelled by those inputs. -/
structure Meltsfile where
  record : Record
  modes : Val
  exclude : List String
deriving DecidableEq, Repr

/-- One experiment the loop actually executed: its name, the meltsfile
inputs, and the process session driven for it. -/
structure ExecutedRun where
  name : String
  file : Meltsfile
  session : ProcessSession
deriving DecidableEq, Repr

/-- The `modifychem` block of the loop body (src lines 199-208):

    if "modifychem" in exp:
        modifications = exp.pop("modifychem")           # removes the key
        ek, mk = set(exp.keys()), set(modifications.keys())
        for k, v in exp["modifychem"].items():          # re-reads the popped key
            ...

After the `pop`, `exp` no longer binds `"modifychem"`, so evaluating
`exp["modifychem"]` raises `KeyError("modifychem")`.  (Were the key somehow
still present — impossible for a dict — the block would next evaluate
`np.array(...)` at src line 206 with `np` never imported by the module,
raising `NameError("np")`.) -/
def modifychemStep (exp : Record) : Except PyError Record :=
  match lookup exp "modifychem" with
  | none => Except.ok exp
  | some _ =>
      let exp₁ := popKey exp "modifychem"
      match lookup exp₁ "modifychem" with
      | none => Except.error (PyError.keyError "modifychem")
      | some _ => Except.error (PyError.nameError "np")

/-- The preparation part of the loop body (src lines 199-217) for one
experiment record, given the current state of the shared `exclude` list.
Returns the meltsfile inputs together with the (possibly extended) exclude
list, or the Python exception raised:

    if "modifychem" in exp: ...                         # modifychemStep
    exp_exclude = exclude                               # aliases the shared list
    if "exclude" in exp:
        exp_exclude += exp.pop("exclude")               # extends it in place
    meltsfile = dict_to_meltsfile(exp, modes=exp["modes"], exclude=exp_exclude)

`exp["modes"]` raises `KeyError("modes")` when absent, and `+=` on a
non-list directive value raises a `TypeError`. -/
def prepareExp (exp : Record) (exclude : List String) :
    Except PyError (Meltsfile × List String) :=
  match modifychemStep exp with
  | Except.error e => Except.error e
  | Except.ok exp₁ =>
      match lookup exp₁ "exclude" with
      | some (Val.slist l) =>
          let exp₂ := popKey exp₁ "exclude"
          let exclude₁ := exclude ++ l
          match lookup exp₂ "modes" with
          | some m =>
              Except.ok ({ record := exp₂, modes := m, exclude := exclude₁ }, exclude₁)
          | none => Except.error (PyError.keyError "modes")
      | some _ => Except.error (PyError.typeError "exclude directive is not a list")
      | none =>
          match lookup exp₁ "modes" with
          | some m =>
              Except.ok ({ record := exp₁, modes := m, exclude := exclude }, exclude)
          | none => Except.error (PyError.keyError "modes")

/-- The outcome of the experiment loop: the runs executed (in order), the
final state of the shared `exclude` list, and the exception that aborted the
loop, if any. -/
structure LoopOutcome where
  executed : List ExecutedRun
  finalExclude : List String
  err : Option PyError
deriving DecidableEq, Repr

/-- The experiment loop of `MeltsBatch.run` (src lines 196-220).  The loop
body has no exception handler, so the first exception stops the loop and
propagates: later experiments are not attempted. -/
def runLoop (sls log : Bool) :
    List (String × Record × Record) → List String → LoopOutcome
  | [], exclude => { executed := [], finalExclude := exclude, err := none }
  | (name, exp, _env) :: rest, exclude =>
      match prepareExp exp exclude with
      | Except.error e =>
          { executed := [], finalExclude := exclude, err := some e }
      | Except.ok (mf, exclude₁) =>
          let r : ExecutedRun :=
            { name := name, file := mf, session := meltsExperimentRun false sls }
          let rec₁ := runLoop sls log rest exclude₁
          { rec₁ with executed := r :: rec₁.executed }

/-- The observable outcome of one call to `MeltsBatch.run`. `duration` and
`paths` are `none` when the loop aborted with an exception (the assignments
at src lines 221-223 are then never reached); on normal completion
`self.paths` is assigned the local `paths`, which stays `[]` because the
appending statement (src line 215) is commented out. -/
structure RunOutcome where
  selected : List (String × Record × Record)
  loop : LoopOutcome
  duration : Option Int
  paths : Option (List String)
deriving DecidableEq, Repr

/-- `MeltsBatch.run(overwrite, exclude, superliquidus_start)`
(src lines 184-223).  `dirExists n` models `(self.dir / n).exists()`,
`t0` and `t1` the wall-clock readings at entry and at loop end. -/
def runBatch (dirExists : String → Bool)
    (experiments : List (String × Record × Record)) (overwrite : Bool)
    (exclude : List String) (sls : Bool) (t0 t1 : Int) : RunOutcome :=
  let selected :=
    if overwrite then experiments
    else experiments.filter (fun e => !dirExists e.1)
  let out := runLoop sls false selected exclude
  { selected := selected, loop := out,
    duration := if out.err = none then some (t1 - t0) else none,
    paths := if out.err = none then some [] else none }

/-- The entries of an experiment record's `exclude` directive (empty when the
directive is absent or malformed). -/
def excludeDirective (exp : Record) : List String :=
  match lookup exp "exclude" with
  | some (Val.slist l) => l
  | _ => []

/-- A record the loop body can process without raising: no `modifychem` key
(whose handling always raises, see `modifychemStep`), a `modes` key, and an
`exclude` directive that, when present, is a list. -/
def wellFormedExp (exp : Record) : Bool :=
  !hasKey exp "modifychem" && hasKey exp "modes" &&
    (match lookup exp "exclude" with
     | some (Val.slist _) => true
     | some _ => false
     | none => true)

/-- The successive states of the shared `exclude` list seen by the rendered
meltsfiles: each experiment sees the initial list extended by the directives
of every experiment up to and including itself. -/
def effectiveExcludes (exclude : List String) :
    List (String × Record × Record) → List (List String)
  | [] => []
  | x :: rest =>
      let e₁ := exclude ++ excludeDirective x.2.1
      e₁ :: effectiveExcludes e₁ rest

/-! ## Concrete records used in counterexamples and witnesses -/

/-- A record whose chemical components sum to 100 and which carries a
`modifychem` directive. -/
def chemExp : Record :=
  [("SiO2", Val.num 60), ("MgO", Val.num 40),
   ("modifychem", Val.nmap [("MgO", 20)]),
   ("modes", Val.slist ["isobaric"])]

/-- A well-formed experiment record with no directives. -/
def okExpA : Record :=
  [("SiO2", Val.num 60), ("MgO", Val.num 40), ("modes", Val.slist ["isobaric"])]

/-- A well-formed experiment record with an `exclude` directive. -/
def okExpB : Record :=
  [("Title", Val.str "b"), ("exclude", Val.slist ["apatite"]),
   ("modes", Val.slist ["isobaric"])]

/-- Another well-formed record with an `exclude` directive. -/
def okExpC : Record :=
  [("Title", Val.str "c"), ("exclude", Val.slist ["rutile"]),
   ("modes", Val.slist ["isobaric"])]

/-- An environment record (opaque to the claims). -/
def envR : Record := [("ALPHAMELTS_VERSION", Val.str "1.9")]

/-- A default configuration whose merge with the combination `{a: 1}`
reproduces it exactly. -/
def gridD : Record := [("a", Val.num 1), ("b", Val.num 2)]

/-- A two-experiment batch whose first record carries `modifychem`. -/
def c2exps : List (String × Record × Record) :=
  [("exp-a", chemExp, envR), ("exp-b", okExpA, envR)]

/-- A composition record including the positional `modes` entry. -/
def compMg : Record :=
  [("MgO", Val.num 100), ("modes", Val.slist ["isobaric"])]

/-- An experiment set built by the constructor from a duplicated
configuration grid: its two entries carry the same name. -/
def c5exps : List (String × Record × Record) :=
  mkExperiments (mkConfigs gridD [("a", [Val.num 1])]) [compMg] envR

theorem lookup_popKey_self (r : Record) (k : String) :
    lookup (popKey r k) k = none := by
  induction r with
  | nil => rfl
  | cons p rest ih =>
      by_cases h : p.1 = k
      · simpa [popKey, List.filter_cons, h] using ih
      · simpa [popKey, List.filter_cons, h, lookup] using ih

theorem lookup_popKey_ne (r : Record) (k k' : String) (h : k' ≠ k) :
    lookup (popKey r k) k' = lookup r k' := by
  induction r with
  | nil => rfl
  | cons p rest ih =>
      by_cases hp : p.1 = k
      · simpa [popKey, List.filter_cons, hp, lookup, Ne.symm h] using ih
      · by_cases hp' : p.1 = k'
        · simp [popKey, List.filter_cons, hp, lookup, hp', h]
        · simpa [popKey, List.filter_cons, hp, lookup, hp'] using ih

/-- When the record contains `modifychem`, the block of src lines 199-208
raises `KeyError("modifychem")`: the key is popped and then read again. -/
theorem modifychemStep_error (exp : Record)
    (h : hasKey exp "modifychem" = true) :
    modifychemStep exp = Except.error (PyError.keyError "modifychem") := by
  obtain ⟨v, hv⟩ := Option.isSome_iff_exists.mp (by simpa [hasKey] using h)
  simp [modifychemStep, hv, lookup_popKey_self]

/-- A well-formed record prepares successfully, extending the shared
`exclude` list exactly by its directive and embedding the extended list in
the rendered meltsfile. -/
theorem prepareExp_wf (exp : Record) (exclude : List String)
    (h : wellFormedExp exp = true) :
    ∃ mf : Meltsfile,
      prepareExp exp exclude = Except.ok (mf, exclude ++ excludeDirective exp)
      ∧ mf.exclude = exclude ++ excludeDirective exp := by
  simp only [wellFormedExp, Bool.and_eq_true, Bool.not_eq_true'] at h
  obtain ⟨⟨hmc, hmodes⟩, hexcl⟩ := h
  have hnone : lookup exp "modifychem" = none := by
    cases hl : lookup exp "modifychem" with
    | none => rfl
    | some v => rw [hasKey, hl] at hmc; simp at hmc
  have hstep : modifychemStep exp = Except.ok exp := by
    simp [modifychemStep, hnone]
  obtain ⟨m, hm⟩ : ∃ m, lookup exp "modes" = some m := by
    cases hl : lookup exp "modes" with
    | none => rw [hasKey, hl] at hmodes; simp at hmodes
    | some v => exact ⟨v, rfl⟩
  match he : lookup exp "exclude" with
  | some (Val.slist l) =>
      have hm₂ : lookup (popKey exp "exclude") "modes" = some m := by
        rw [lookup_popKey_ne _ _ _ (by decide)]
        exact hm
      refine ⟨{ record := popKey exp "exclude", modes := m,
                exclude := exclude ++ l }, ?_, ?_⟩
      · simp [prepareExp, hstep, he, hm₂, excludeDirective]
      · simp [excludeDirective, he]
  | some (Val.num n) => rw [he] at hexcl; simp at hexcl
  | some (Val.str s) => rw [he] at hexcl; simp at hexcl
  | some (Val.nmap nm) => rw [he] at hexcl; simp at hexcl
  | none =>
      refine ⟨{ record := exp, modes := m, exclude := exclude }, ?_, ?_⟩
      · simp [prepareExp, hstep, he, hm, excludeDirective]
      · simp [excludeDirective, he]

/-- Behaviour of the loop on a list of well-formed experiments: no
exception, every experiment executed in order, the meltsfiles seeing the
successively extended exclude lists, and the shared list left extended by
every directive. -/
theorem runLoop_wf (sls log : Bool) (exps : List (String × Record × Record))
    (exclude : List String) (h : ∀ x ∈ exps, wellFormedExp x.2.1 = true) :
    (runLoop sls log exps exclude).err = none
    ∧ (runLoop sls log exps exclude).executed.map ExecutedRun.name
        = exps.map Prod.fst
    ∧ (runLoop sls log exps exclude).executed.map (fun r => r.file.exclude)
        = effectiveExcludes exclude exps
    ∧ (runLoop sls log exps exclude).finalExclude
        = exclude ++ (exps.map (fun x => excludeDirective x.2.1)).flatten := by
  induction exps generalizing exclude with
  | nil => simp [runLoop, effectiveExcludes]
  | cons x rest ih =>
      obtain ⟨name, exp, env⟩ := x
      have hx : wellFormedExp exp = true := h _ (List.mem_cons_self _ _)
      obtain ⟨mf, hprep, hmf⟩ := prepareExp_wf exp exclude hx
      have hrest := ih (exclude ++ excludeDirective exp)
        (fun y hy => h y (List.mem_cons_of_mem _ hy))
      obtain ⟨h1, h2, h3, h4⟩ := hrest
      simp only [runLoop, hprep]
      refine ⟨h1, ?_, ?_, ?_⟩
      · simpa using h2
      · simpa [effectiveExcludes, hmf] using h3
      · simpa [List.append_assoc] using h4

/-- Behaviour of the loop when a faulty experiment follows well-formed ones:
the loop aborts at the faulty record with the uncaught `KeyError` and the
experiments after it are never attempted. -/
theorem runLoop_abort (sls log : Bool)
    (pre post : List (String × Record × Record))
    (bad : String × Record × Record) (exclude : List String)
    (hpre : ∀ x ∈ pre, wellFormedExp x.2.1 = true)
    (hbad : hasKey bad.2.1 "modifychem" = true) :
    (runLoop sls log (pre ++ bad :: post) exclude).err
        = some (PyError.keyError "modifychem")
    ∧ (runLoop sls log (pre ++ bad :: post) exclude).executed.map
        ExecutedRun.name = pre.map Prod.fst := by
  induction pre generalizing exclude with
  | nil =>
      obtain ⟨name, exp, env⟩ := bad
      have hprep : prepareExp exp exclude
          = Except.error (PyError.keyError "modifychem") := by
        unfold prepareExp
        rw [modifychemStep_error exp hbad]
      simp [runLoop, hprep]
  | cons x rest ih =>
      obtain ⟨name, exp, env⟩ := x
      have hx : wellFormedExp exp = true := hpre _ (List.mem_cons_self _ _)
      obtain ⟨mf, hprep, hmf⟩ := prepareExp_wf exp exclude hx
      have hrest := ih (exclude ++ excludeDirective exp)
        (fun y hy => hpre y (List.mem_cons_of_mem _ hy))
      simp only [List.cons_append, runLoop, hprep]
      exact ⟨hrest.1, by simpa using hrest.2⟩

theorem mergeRec_nil (a : Record) : mergeRec a [] = a := by
  simp [mergeRec, lookup]

theorem combine_choices_length (choices : List (String × List Val)) :
    (combine_choices choices).length
      = (choices.map (fun c => c.2.length)).prod := by
  induction choices with
  | nil => rfl
  | cons c rest ih =>
      obtain ⟨k, vs⟩ := c
      simp [combine_choices, Function.comp_def, List.length_map, List.map_const',
        List.sum_replicate, smul_eq_mul, ih, Nat.mul_comm]

theorem listProduct_length (as : List α) (bs : List β) :
    (listProduct as bs).length = as.length * bs.length := by
  induction as with
  | nil => simp [listProduct]
  | cons a rest ih =>
      simp only [listProduct] at *
      simp [ih, Nat.succ_mul, Nat.add_comm]

theorem mem_listProduct {as : List α} {bs : List β} {p : α × β} :
    p ∈ listProduct as bs ↔ p.1 ∈ as ∧ p.2 ∈ bs := by
  obtain ⟨a, b⟩ := p
  simp [listProduct]

/-! ## Claim theorems -/

/-- **C1** (code bug): the claim says that for a record whose chemical
components sum to 100 and which carries a `modifychem` directive, the run
step overlays the directive and proportionally renormalizes the unmodified
components so the total is again 100.  In fact the loop body pops
`"modifychem"` off the record and then immediately evaluates
`exp["modifychem"]` again (src lines 200-202), so preparing any such record
raises `KeyError("modifychem")`: no overlay and no renormalization ever
happen, and the uncaught exception aborts the run.  (`chemExp`'s components
sum to 60 + 40 = 100.) -/
theorem modifychem_block_raises :
    lookup chemExp "SiO2" = some (Val.num 60)
    ∧ lookup chemExp "MgO" = some (Val.num 40)
    ∧ prepareExp chemExp [] = Except.error (PyError.keyError "modifychem")
    ∧ (runBatch (fun _ => false) [("exp-chem", chemExp, envR)] false [] true
        0 1).loop.err = some (PyError.keyError "modifychem") := by
  refine ⟨rfl, rfl, rfl, by decide⟩

/-- **C10**: `MeltsExperiment.run` sends the controller exactly one
three-token command sequence — the calculation-mode token `3`, then `1`
when `superliquidus_start` is true and `0` when it is false, then the
run-trigger token `4` — with `wait=True`, and terminates the process
session afterwards. -/
theorem experiment_run_command_sequence (log sls : Bool) :
    (meltsExperimentRun log sls).writes
      = [{ tokens := [3, if sls then 1 else 0, 4], wait := true, log := log }]
    ∧ (meltsExperimentRun log sls).terminated = true :=
  ⟨rfl, rfl⟩

/-- **C2** counterexample: in the two-experiment batch `c2exps`, whose first
record carries `modifychem`, the exception raised while preparing the first
experiment is not caught at the orchestrator boundary: the loop aborts with
the error, the second experiment is never attempted, and the post-loop
bookkeeping is never reached. -/
theorem batch_abort_on_error_cex :
    (runBatch (fun _ => false) c2exps false [] true 0 9).loop.err
      = some (PyError.keyError "modifychem")
    ∧ (runBatch (fun _ => false) c2exps false [] true 0 9).loop.executed = []
    ∧ (runBatch (fun _ => false) c2exps false [] true 0 9).duration = none := by
  refine ⟨by decide, by decide, by decide⟩

/-- **C2** (amended): failure of one experiment aborts the batch: when the
experiments before the faulty one are well formed, `MeltsBatch.run` executes
exactly those, the uncaught `KeyError` escapes, and the experiments after
the faulty one are never attempted; the duration bookkeeping after the loop
is skipped. -/
theorem batch_error_propagates (dirExists : String → Bool) (sls : Bool)
    (pre post : List (String × Record × Record))
    (bad : String × Record × Record) (exclude : List String) (t0 t1 : Int)
    (hpre : ∀ x ∈ pre, wellFormedExp x.2.1 = true)
    (hbad : hasKey bad.2.1 "modifychem" = true) :
    (runBatch dirExists (pre ++ bad :: post) true exclude sls t0 t1).loop.err
      = some (PyError.keyError "modifychem")
    ∧ (runBatch dirExists (pre ++ bad :: post) true exclude sls
        t0 t1).loop.executed.map ExecutedRun.name = pre.map Prod.fst
    ∧ (runBatch dirExists (pre ++ bad :: post) true exclude sls t0 t1).duration
      = none := by
  have h := runLoop_abort sls false pre post bad exclude hpre hbad
  have hloop : (runBatch dirExists (pre ++ bad :: post) true exclude sls
      t0 t1).loop = runLoop sls false (pre ++ bad :: post) exclude := by
    simp [runBatch]
  refine ⟨by rw [hloop]; exact h.1, by rw [hloop]; exact h.2, ?_⟩
  simp [runBatch, h.1]

/-- Witness for `batch_error_propagates`: one well-formed experiment before
the faulty one, one after. -/
theorem batch_error_propagates_witness :
    ((∀ x ∈ [("exp-b", okExpB, envR)], wellFormedExp x.2.1 = true)
      ∧ hasKey chemExp "modifychem" = true)
    ∧ ((runBatch (fun _ => false)
          ([("exp-b", okExpB, envR)] ++ ("exp-chem", chemExp, envR) ::
            [("exp-a", okExpA, envR)]) true [] true 0 9).loop.err
        = some (PyError.keyError "modifychem")
      ∧ (runBatch (fun _ => false)
          ([("exp-b", okExpB, envR)] ++ ("exp-chem", chemExp, envR) ::
            [("exp-a", okExpA, envR)]) true [] true 0
          9).loop.executed.map ExecutedRun.name
        = [("exp-b", okExpB, envR)].map Prod.fst
      ∧ (runBatch (fun _ => false)
          ([("exp-b", okExpB, envR)] ++ ("exp-chem", chemExp, envR) ::
            [("exp-a", okExpA, envR)]) true [] true 0 9).duration = none) :=
  ⟨⟨by decide, by decide⟩,
    batch_error_propagates (fun _ => false) true [("exp-b", okExpB, envR)]
      [("exp-a", okExpA, envR)] ("exp-chem", chemExp, envR) [] 0 9
      (by decide) (by decide)⟩

/-- **C3** counterexample: with `overwrite=False` the batch correctly skips
the experiment whose folder exists, but the claim's second half — "all
remaining experiments are attempted" — fails: the first remaining
experiment raises, so the last remaining experiment is never attempted. -/
theorem remaining_not_all_attempted_cex :
    (runBatch (fun n => n == "exp-skip")
        [("exp-skip", okExpB, envR), ("exp-chem", chemExp, envR),
          ("exp-a", okExpA, envR)] false [] true 0 9).selected
      = [("exp-chem", chemExp, envR), ("exp-a", okExpA, envR)]
    ∧ (runBatch (fun n => n == "exp-skip")
        [("exp-skip", okExpB, envR), ("exp-chem", chemExp, envR),
          ("exp-a", okExpA, envR)] false [] true 0 9).loop.executed = []
    ∧ (runBatch (fun n => n == "exp-skip")
        [("exp-skip", okExpB, envR), ("exp-chem", chemExp, envR),
          ("exp-a", okExpA, envR)] false [] true 0 9).loop.err
      = some (PyError.keyError "modifychem") := by
  refine ⟨by decide, by decide, by decide⟩

/-- **C3** (amended): with `overwrite=False` exactly the experiments whose
run folder already exists are excluded — folder existence is the sole
criterion, regardless of whether the prior run succeeded — and, provided no
remaining experiment raises during preparation, every remaining experiment
is attempted in order. -/
theorem run_skips_existing_folders (dirExists : String → Bool)
    (exps : List (String × Record × Record)) (exclude : List String)
    (sls : Bool) (t0 t1 : Int)
    (h : ∀ x ∈ exps, wellFormedExp x.2.1 = true) :
    (runBatch dirExists exps false exclude sls t0 t1).selected
      = exps.filter (fun e => !dirExists e.1)
    ∧ (runBatch dirExists exps false exclude sls t0 t1).loop.err = none
    ∧ (runBatch dirExists exps false exclude sls
        t0 t1).loop.executed.map ExecutedRun.name
      = (exps.filter (fun e => !dirExists e.1)).map Prod.fst := by
  have hf : ∀ x ∈ exps.filter (fun e => !dirExists e.1),
      wellFormedExp x.2.1 = true :=
    fun x hx => h x (List.mem_filter.mp hx).1
  have hw := runLoop_wf sls false (exps.filter (fun e => !dirExists e.1))
    exclude hf
  have hloop : (runBatch dirExists exps false exclude sls t0 t1).loop
      = runLoop sls false (exps.filter (fun e => !dirExists e.1)) exclude := by
    simp [runBatch]
  exact ⟨by simp [runBatch], by rw [hloop]; exact hw.1,
    by rw [hloop]; exact hw.2.1⟩

/-- Witness for `run_skips_existing_folders`: of two well-formed
experiments, the one whose folder exists is skipped and the other runs. -/
theorem run_skips_existing_folders_witness :
    (∀ x ∈ [("exp-b", okExpB, envR), ("exp-c", okExpC, envR)],
        wellFormedExp x.2.1 = true)
    ∧ (runBatch (fun n => n == "exp-b")
        [("exp-b", okExpB, envR), ("exp-c", okExpC, envR)] false [] true
        0 9).selected = [("exp-c", okExpC, envR)]
    ∧ (runBatch (fun n => n == "exp-b")
        [("exp-b", okExpB, envR), ("exp-c", okExpC, envR)] false [] true
        0 9).loop.executed.map ExecutedRun.name = ["exp-c"] := by
  have h := run_skips_existing_folders (fun n => n == "exp-b")
    [("exp-b", okExpB, envR), ("exp-c", okExpC, envR)] [] true 0 9 (by decide)
  refine ⟨by decide, ?_, ?_⟩
  · rw [h.1]; decide
  · rw [h.2.2]; decide

/-- **C4** counterexample: with default `{a: 1, b: 2}` and the single-choice
grid `{a: [1]}`, the one combination `{a: 1}` merges over the default to a
record structurally identical to the default, which is already present —
the claim says such a record is dropped — yet it is kept: the code tests
the raw combination, not the merged record, for membership, so the expanded
list is `[default, default]` rather than `[default]`. -/
theorem grid_merged_duplicate_kept_cex :
    mkConfigs gridD [("a", [Val.num 1])] = [gridD, gridD]
    ∧ dictEq gridD gridD = true := by
  refine ⟨by decide, by decide⟩

/-- **C4** (amended): the expanded list has the default `D` first, followed
in enumeration order by the merge over `D` of each Cartesian combination,
where a combination is dropped precisely when the raw combination itself is
dict-equal to `D`; merged records duplicating an already-present record are
otherwise retained.  In particular the empty choice grid produces the single
empty combination, which is dropped only when `D` itself is the empty
record: the result is `[D]` for empty `D` and `[D, D]` otherwise. -/
theorem mkConfigs_characterization (D : Record)
    (choices : List (String × List Val)) :
    mkConfigs D choices
      = D :: ((combine_choices choices).filter (fun i => !dictEq i D)).map
          (fun i => mergeRec D i)
    ∧ mkConfigs D [] = (if dictEq ([] : Record) D then [D] else [D, D]) := by
  constructor
  · simp [mkConfigs, expandConfigs]
  · by_cases hd : dictEq ([] : Record) D = true
    · simp [mkConfigs, expandConfigs, combine_choices, hd, mergeRec_nil]
    · rw [Bool.not_eq_true] at hd
      simp [mkConfigs, expandConfigs, combine_choices, hd, mergeRec_nil]

/-- **C9** counterexample: a batch that executes one experiment records a
duration, but its run-path list is empty rather than holding one path for
the executed experiment: the path-collecting statement in the loop is
commented out in the source. -/
theorem paths_empty_cex :
    (runBatch (fun _ => false) [("exp-a", okExpA, envR)] false [] true 0
        7).loop.executed.length = 1
    ∧ (runBatch (fun _ => false) [("exp-a", okExpA, envR)] false [] true 0
        7).paths = some []
    ∧ (runBatch (fun _ => false) [("exp-a", okExpA, envR)] false [] true 0
        7).duration = some 7 := by
  refine ⟨by decide, by decide, by decide⟩

/-- **C9** (amended): after a loop that completes without an exception the
orchestrator records the total elapsed duration, and records the run-path
list as the empty list — no path per executed experiment is collected. -/
theorem duration_and_empty_paths (dirExists : String → Bool)
    (exps : List (String × Record × Record)) (overwrite : Bool)
    (exclude : List String) (sls : Bool) (t0 t1 : Int)
    (h : ∀ x ∈ exps, wellFormedExp x.2.1 = true) :
    (runBatch dirExists exps overwrite exclude sls t0 t1).duration
      = some (t1 - t0)
    ∧ (runBatch dirExists exps overwrite exclude sls t0 t1).paths
      = some [] := by
  have hsub : ∀ x ∈ (if overwrite then exps
      else exps.filter (fun e => !dirExists e.1)), wellFormedExp x.2.1 = true := by
    cases overwrite with
    | true => simpa using h
    | false =>
        intro x hx
        simp only [if_neg Bool.false_ne_true] at hx
        exact h x (List.mem_filter.mp hx).1
  have hw := runLoop_wf sls false
    (if overwrite then exps else exps.filter (fun e => !dirExists e.1))
    exclude hsub
  constructor <;> simp [runBatch, hw.1]

/-- Witness for `duration_and_empty_paths` at a concrete batch. -/
theorem duration_and_empty_paths_witness :
    (∀ x ∈ [("exp-a", okExpA, envR)], wellFormedExp x.2.1 = true)
    ∧ (runBatch (fun _ => false) [("exp-a", okExpA, envR)] false [] true 2
        9).duration = some (9 - 2)
    ∧ (runBatch (fun _ => false) [("exp-a", okExpA, envR)] false [] true 2
        9).paths = some [] :=
  ⟨by decide,
    duration_and_empty_paths (fun _ => false) [("exp-a", okExpA, envR)]
      false [] true 2 9 (by decide)⟩

/-- **C5** counterexample: the experiment set `c5exps` (built by the
constructor from a duplicated configuration grid) contains two entries with
the same name, yet nothing is detected before any run launches and nothing
is fatal: the constructor keeps both entries and `run` executes both. -/
theorem name_collision_silent_cex :
    ¬ (c5exps.map Prod.fst).Nodup
    ∧ c5exps.length = 2
    ∧ (runBatch (fun _ => false) c5exps false [] true 0 9).loop.err = none
    ∧ (runBatch (fun _ => false) c5exps false [] true
        0 9).loop.executed.length = 2 := by
  refine ⟨by decide, by decide, by decide, by decide⟩

/-- **C5** (amended): no name-collision detection is performed anywhere:
even when the experiment set contains duplicate names, `MeltsBatch.__init__`
retains every cross-product entry and `run` executes them all; collisions
are neither reported nor fatal. -/
theorem collisions_not_detected (configs compositions : List Record)
    (env : Record) (exclude : List String) (sls : Bool) (t0 t1 : Int)
    (hcol : ¬ ((mkExperiments configs compositions env).map Prod.fst).Nodup)
    (hwf : ∀ x ∈ mkExperiments configs compositions env,
        wellFormedExp x.2.1 = true) :
    (mkExperiments configs compositions env).length
      = configs.length * compositions.length
    ∧ (runBatch (fun _ => false) (mkExperiments configs compositions env)
        true exclude sls t0 t1).loop.err = none
    ∧ (runBatch (fun _ => false) (mkExperiments configs compositions env)
        true exclude sls t0 t1).loop.executed.length
      = configs.length * compositions.length := by
  have hw := runLoop_wf sls false (mkExperiments configs compositions env)
    exclude hwf
  have hloop : (runBatch (fun _ => false)
      (mkExperiments configs compositions env) true exclude sls t0 t1).loop
      = runLoop sls false (mkExperiments configs compositions env) exclude := by
    simp [runBatch]
  have hlen : (mkExperiments configs compositions env).length
      = configs.length * compositions.length := by
    simp [mkExperiments, listProduct_length]
  refine ⟨hlen, by rw [hloop]; exact hw.1, ?_⟩
  rw [hloop]
  have hmap := congrArg List.length hw.2.1
  simpa [hlen] using hmap

/-- Witness for `collisions_not_detected`: the duplicated grid from the C5
counterexample. -/
theorem collisions_not_detected_witness :
    (¬ ((mkExperiments (mkConfigs gridD [("a", [Val.num 1])]) [compMg]
        envR).map Prod.fst).Nodup)
    ∧ (mkExperiments (mkConfigs gridD [("a", [Val.num 1])]) [compMg]
        envR).length
      = (mkConfigs gridD [("a", [Val.num 1])]).length * [compMg].length
    ∧ (runBatch (fun _ => false)
        (mkExperiments (mkConfigs gridD [("a", [Val.num 1])]) [compMg] envR)
        true [] true 0 9).loop.err = none
    ∧ (runBatch (fun _ => false)
        (mkExperiments (mkConfigs gridD [("a", [Val.num 1])]) [compMg] envR)
        true [] true 0 9).loop.executed.length
      = (mkConfigs gridD [("a", [Val.num 1])]).length * [compMg].length :=
  ⟨by decide,
    collisions_not_detected (mkConfigs gridD [("a", [Val.num 1])]) [compMg]
      envR [] true 0 9 (by decide) (by decide)⟩

/-- **C6**: the experiment set is the full cross product: its cardinality is
`|configs| × |compositions|`, and each entry is the (name, merged record,
environment) triple of one configuration/composition pair, the composition
winning on key conflicts. -/
theorem experiment_set_cardinality (configs compositions : List Record)
    (env : Record) (hne : compositions ≠ []) :
    (mkExperiments configs compositions env).length
      = configs.length * compositions.length
    ∧ ∀ e ∈ mkExperiments configs compositions env,
        ∃ cfg ∈ configs, ∃ cmp ∈ compositions,
          e = (exp_name (mergeRec cfg cmp), mergeRec cfg cmp, env) := by
  constructor
  · simp [mkExperiments, listProduct_length]
  · intro e he
    simp only [mkExperiments, List.mem_map] at he
    obtain ⟨p, hp, rfl⟩ := he
    have hm := mem_listProduct.mp hp
    exact ⟨p.1, hm.1, p.2, hm.2, rfl⟩

/-- Witness for `experiment_set_cardinality`: the spec's scenario — one
default configuration, a 2-value choice grid on one parameter, and two
compositions — yields exactly (1 + 2) × 2 = 6 entries. -/
theorem experiment_set_cardinality_witness :
    ([compMg, okExpA] ≠ ([] : List Record))
    ∧ (mkExperiments
        (mkConfigs [("T", Val.num 1400)] [("P", [Val.num 1, Val.num 2])])
        [compMg, okExpA] envR).length = 6 := by
  refine ⟨by decide, ?_⟩
  have h := experiment_set_cardinality
    (mkConfigs [("T", Val.num 1400)] [("P", [Val.num 1, Val.num 2])])
    [compMg, okExpA] envR (by decide)
  rw [h.1]; decide

/-- **C7**: the expanded configuration list has length at most
`1 + k1·k2·…·kn` (the `ki` being the choice-list sizes, whose product is the
number of Cartesian combinations), with equality exactly when no combination
reproduces the default record `D`. -/
theorem config_grid_length_bound (D : Record)
    (choices : List (String × List Val)) :
    (combine_choices choices).length
      = (choices.map (fun c => c.2.length)).prod
    ∧ (mkConfigs D choices).length
      ≤ 1 + (choices.map (fun c => c.2.length)).prod
    ∧ ((mkConfigs D choices).length
          = 1 + (choices.map (fun c => c.2.length)).prod
        ↔ ∀ i ∈ combine_choices choices, dictEq i D = false) := by
  have hlen := combine_choices_length choices
  have hchar : (mkConfigs D choices).length
      = 1 + ((combine_choices choices).filter
          (fun i => !dictEq i D)).length := by
    simp [mkConfigs, expandConfigs, Nat.add_comm]
  refine ⟨hlen, ?_, ?_⟩
  · rw [hchar, ← hlen]
    have hle := List.length_filter_le (fun i => !dictEq i D)
      (combine_choices choices)
    omega
  · rw [hchar, ← hlen]
    have hiff := List.filter_length_eq_length
      (p := fun i => !dictEq i D) (l := combine_choices choices)
    constructor
    · intro he i hi
      have hall := hiff.mp (by omega)
      have := hall i hi
      simpa using this
    · intro hall
      have : ((combine_choices choices).filter (fun i => !dictEq i D)).length
          = (combine_choices choices).length :=
        hiff.mpr (fun i hi => by simp [hall i hi])
      omega

/-- Witness for `config_grid_length_bound` is not required (the theorem has
no hypotheses), but we record the bound at a concrete grid: a 2-value and a
3-value choice list give at most 1 + 2·3 = 7 configurations, with equality
since no combination equals the default. -/
theorem config_grid_length_bound_witness :
    (mkConfigs [("T", Val.num 1400)]
        [("P", [Val.num 1, Val.num 2]),
          ("fO2", [Val.str "FMQ", Val.str "NNO", Val.str "IW"])]).length
      = 1 + ([("P", [Val.num 1, Val.num 2]),
          ("fO2", [Val.str "FMQ", Val.str "NNO", Val.str "IW"])].map
            (fun c => c.2.length)).prod := by
  have h := config_grid_length_bound [("T", Val.num 1400)]
    [("P", [Val.num 1, Val.num 2]),
      ("fO2", [Val.str "FMQ", Val.str "NNO", Val.str "IW"])]
  exact h.2.2.mpr (by decide)

/-- **C8**: `run` mutates the caller's `exclude` list in place (modelled as
threaded state): each experiment's `exclude` directive is appended to the
shared list, every rendered meltsfile sees the initial list extended by the
directives of all experiments up to and including its own, the list ends
extended by every directive, and a later call to `run` starting from the
mutated list carries those exclusions forward. -/
theorem exclude_list_mutation
    (exps₁ exps₂ : List (String × Record × Record)) (exclude : List String)
    (sls : Bool) (t0 t1 : Int)
    (h₁ : ∀ x ∈ exps₁, wellFormedExp x.2.1 = true)
    (h₂ : ∀ x ∈ exps₂, wellFormedExp x.2.1 = true) :
    (runBatch (fun _ => false) exps₁ true exclude sls
        t0 t1).loop.executed.map (fun r => r.file.exclude)
      = effectiveExcludes exclude exps₁
    ∧ (runBatch (fun _ => false) exps₁ true exclude sls
        t0 t1).loop.finalExclude
      = exclude ++ (exps₁.map (fun x => excludeDirective x.2.1)).flatten
    ∧ (runBatch (fun _ => false) exps₂ true
        ((runBatch (fun _ => false) exps₁ true exclude sls
          t0 t1).loop.finalExclude) sls t0 t1).loop.executed.map
        (fun r => r.file.exclude)
      = effectiveExcludes
          (exclude ++ (exps₁.map (fun x => excludeDirective x.2.1)).flatten)
          exps₂ := by
  have hw₁ := runLoop_wf sls false exps₁ exclude h₁
  have hloop₁ : (runBatch (fun _ => false) exps₁ true exclude sls t0 t1).loop
      = runLoop sls false exps₁ exclude := by
    simp [runBatch]
  have hfin : (runBatch (fun _ => false) exps₁ true exclude sls
      t0 t1).loop.finalExclude
      = exclude ++ (exps₁.map (fun x => excludeDirective x.2.1)).flatten := by
    rw [hloop₁]; exact hw₁.2.2.2
  refine ⟨by rw [hloop₁]; exact hw₁.2.2.1, hfin, ?_⟩
  have hw₂ := runLoop_wf sls false exps₂
    (exclude ++ (exps₁.map (fun x => excludeDirective x.2.1)).flatten) h₂
  have hloop₂ : (runBatch (fun _ => false) exps₂ true
      ((runBatch (fun _ => false) exps₁ true exclude sls
        t0 t1).loop.finalExclude) sls t0 t1).loop
      = runLoop sls false exps₂
          (exclude ++ (exps₁.map (fun x => excludeDirective x.2.1)).flatten)
      := by
    rw [hfin]; simp [runBatch]
  rw [hloop₂]; exact hw₂.2.2.1

/-- Witness for `exclude_list_mutation`: two experiments carrying the
directives `["apatite"]` and `["rutile"]`, started from `["water"]`; the
first meltsfile sees `["water", "apatite"]`, the second additionally
`"rutile"`, the shared list ends as `["water", "apatite", "rutile"]`, and a
later run starting from it sees all of them plus its own directive. -/
theorem exclude_list_mutation_witness :
    (∀ x ∈ [("exp-b", okExpB, envR), ("exp-c", okExpC, envR)],
        wellFormedExp x.2.1 = true)
    ∧ (runBatch (fun _ => false)
        [("exp-b", okExpB, envR), ("exp-c", okExpC, envR)] true ["water"]
        true 0 9).loop.executed.map (fun r => r.file.exclude)
      = [["water", "apatite"], ["water", "apatite", "rutile"]]
    ∧ (runBatch (fun _ => false)
        [("exp-b", okExpB, envR), ("exp-c", okExpC, envR)] true ["water"]
        true 0 9).loop.finalExclude = ["water", "apatite", "rutile"]
    ∧ (runBatch (fun _ => false) [("exp-b2", okExpB, envR)] true
        ((runBatch (fun _ => false)
          [("exp-b", okExpB, envR), ("exp-c", okExpC, envR)] true ["water"]
          true 0 9).loop.finalExclude) true 0 9).loop.executed.map
        (fun r => r.file.exclude)
      = [["water", "apatite", "rutile", "apatite"]] := by
  have h := exclude_list_mutation
    [("exp-b", okExpB, envR), ("exp-c", okExpC, envR)]
    [("exp-b2", okExpB, envR)] ["water"] true 0 9 (by decide) (by decide)
  refine ⟨by decide, ?_, ?_, ?_⟩
  · rw [h.1]; decide
  · rw [h.2.1]; decide
  · rw [h.2.2]; decide

-- Sanity examples (grid expansion on concrete inputs).
example :
    mkConfigs [("a", Val.num 1)] [("b", [Val.num 2, Val.num 3])] =
      [[("a", Val.num 1)],
       [("a", Val.num 1), ("b", Val.num 2)],
       [("a", Val.num 1), ("b", Val.num 3)]] := by decide

example :
    mkConfigs [("a", Val.num 1), ("b", Val.num 2)] [("a", [Val.num 1])] =
      [[("a", Val.num 1), ("b", Val.num 2)],
       [("a", Val.num 1), ("b", Val.num 2)]] := by decide
